import Mathlib

/-!
Verification of the BigA_Proj signal / risk decision frontend and engine.

The pure functions of `src/frontend/lib/utils.ts` and the dashboard page
components (the `filterStocks` filter, the `getMarketMood` sentiment
classifier, the alert-card label buttons, the API client's URL building)
are embedded directly from the TypeScript source.  The Decision Gate and
its confidence computation live in the backend engine, which is not part
of the checked sources; those are modelled from the specification and
marked as such in their doc comments.

Numbers that the source handles as JavaScript numbers are modelled as
rationals (`ℚ`); strings as Lean `String`.
-/

namespace BigA

/-! ## utils.ts: risk-light, action and regime display helpers -/

/-- `getRiskLightClass` from `src/frontend/lib/utils.ts`:
switch on the light string, defaulting to the green style. -/
def getRiskLightClass (light : String) : String :=
  if light = "GREEN" then "risk-light-green"
  else if light = "YELLOW" then "risk-light-yellow"
  else if light = "RED" then "risk-light-red"
  else "risk-light-green"

/-- `getRiskLightText` from `src/frontend/lib/utils.ts`. -/
def getRiskLightText (light : String) : String :=
  if light = "GREEN" then "🟢 绿灯"
  else if light = "YELLOW" then "🟡 黄灯"
  else if light = "RED" then "🔴 红灯"
  else "🟢 绿灯"

/-- The possible runtime values of `map[regime] || regime` in
`getRegimeText`: either a string, or a truthy non-string value inherited
from `Object.prototype` (e.g. `Object.prototype.toString`), tagged with
the key that reached it. -/
inductive RegimeTextResult where
  | str (s : String)
  | inherited (key : String)
deriving DecidableEq, Repr

/-- The property keys a plain JavaScript object literal inherits from
`Object.prototype`; `map[k]` for each of them yields a truthy
non-string value (a function, or for `__proto__` the prototype
object). -/
def objectProtoKeys : List String :=
  ["constructor", "hasOwnProperty", "isPrototypeOf", "propertyIsEnumerable",
   "toLocaleString", "toString", "valueOf",
   "__defineGetter__", "__defineSetter__", "__lookupGetter__",
   "__lookupSetter__", "__proto__"]

/-- `getRegimeText` from `src/frontend/lib/utils.ts`:
`map[regime] || regime` on a five-entry object literal.  An own key
yields its (truthy) string label; a key inherited from
`Object.prototype` yields the inherited truthy value, so `|| regime`
does not kick in and the function returns that value, not the input;
any other key looks up `undefined` (falsy) and the input is returned
unchanged. -/
def getRegimeText (regime : String) : RegimeTextResult :=
  if regime = "STRONG" then .str "强势"
  else if regime = "NORMAL" then .str "正常"
  else if regime = "DIVERGENCE" then .str "分化"
  else if regime = "WEAK" then .str "弱势"
  else if regime = "CHAOS" then .str "混沌"
  else if regime ∈ objectProtoKeys then .inherited regime
  else .str regime

/-! ## Dashboard market mood classifier (`getMarketMood`) -/

/-- The four sentiment labels `getMarketMood` can return, ordered
best-to-worst as 强势 (strong) > 偏强 (leaning strong) > 震荡 (choppy)
> 弱势 (weak). -/
inductive Mood where
  | strong      -- 强势
  | leanStrong  -- 偏强
  | choppy      -- 震荡
  | weak        -- 弱势
deriving DecidableEq, Repr

/-- Rank of a mood in the best-to-worst order (larger is better). -/
def moodRank : Mood → ℕ
  | .strong => 3
  | .leanStrong => 2
  | .choppy => 1
  | .weak => 0

/-- `getMarketMood` from the dashboard components (`part_002`, both
copies): classify market sentiment from the limit-up stock count, the
limit-down stock count and the bomb rate. -/
def getMarketMood (limitUp limitDown : ℕ) (bombRate : ℚ) : Mood :=
  if 100 < limitUp ∧ bombRate < 1/5 then .strong
  else if 50 < limitUp ∧ bombRate < 3/10 then .leanStrong
  else if 50 < limitDown ∨ 2/5 < bombRate then .weak
  else .choppy

/-! ## utils.ts: formatting helpers

JavaScript numbers are modelled as rationals and `toFixed` as exact
decimal rounding (nearest, ties toward the larger scaled integer, sign
taken from the input), which matches the ECMAScript algorithm up to
float precision. -/

/-- The character of one decimal digit (used with `k < 10`). -/
def digitChar (k : ℕ) : Char := Char.ofNat (48 + k)

/-- Decimal digit characters of a natural number, most significant
first, as JavaScript renders non-negative integers. -/
def natDigits (n : ℕ) : List Char :=
  if n = 0 then ['0'] else (Nat.digits 10 n).reverse.map digitChar

/-- `|x|` scaled by `10^d` and rounded to the nearest integer, ties
toward the larger value, as in the ECMAScript `toFixed` algorithm. -/
def toFixedScaled (x : ℚ) (d : ℕ) : ℕ := (⌊|x| * 10 ^ d + 1/2⌋).toNat

/-- The unsigned part of `toFixed`: integer digits, then (when `d ≠ 0`)
a decimal point and the fractional digits left-padded with zeros to
exactly `d` places. -/
def toFixedBody (x : ℚ) (d : ℕ) : List Char :=
  if d = 0 then natDigits (toFixedScaled x d / 10 ^ d)
  else
    natDigits (toFixedScaled x d / 10 ^ d) ++ '.' ::
      (List.replicate (d - (natDigits (toFixedScaled x d % 10 ^ d)).length) '0' ++
        natDigits (toFixedScaled x d % 10 ^ d))

/-- Character-level model of `Number.prototype.toFixed`: render `|x|`
rounded to `d` decimal places, a leading '-' when `x` is negative. -/
def toFixedChars (x : ℚ) (d : ℕ) : List Char :=
  if x < 0 then '-' :: toFixedBody x d else toFixedBody x d

/-- `toFixed` as a string. -/
def toFixed (x : ℚ) (d : ℕ) : String := String.mk (toFixedChars x d)

/-- `formatNumber` from `src/frontend/lib/utils.ts`: '-' on null or
undefined, otherwise `value.toFixed(decimals)` (default 2). -/
def formatNumber (value : Option ℚ) (decimals : ℕ := 2) : String :=
  match value with
  | none => "-"
  | some x => toFixed x decimals

/-- `formatPercent` from `src/frontend/lib/utils.ts`. -/
def formatPercent (value : Option ℚ) (decimals : ℕ := 2) : String :=
  match value with
  | none => "-"
  | some x => toFixed (x * 100) decimals ++ "%"

/-- `formatAmount` from `src/frontend/lib/utils.ts`: 亿 / 万 scaling. -/
def formatAmount (value : Option ℚ) : String :=
  match value with
  | none => "-"
  | some x =>
    if 100000000 ≤ x then toFixed (x / 100000000) 2 ++ "亿"
    else if 10000 ≤ x then toFixed (x / 10000) 0 ++ "万"
    else toFixed x 0

/-- `formatTime` from `src/frontend/lib/utils.ts`: '-' on a falsy
timestamp (null, undefined or empty), otherwise the locale time
rendering of the parsed date; the locale rendering is
environment-dependent and kept abstract as `render`. -/
def formatTime (render : String → String) (ts : Option String) : String :=
  match ts with
  | none => "-"
  | some s => if s = "" then "-" else render s

/-- `formatDateTime` from `src/frontend/lib/utils.ts`: same falsy guard,
different locale options (again abstracted as `render`). -/
def formatDateTime (render : String → String) (ts : Option String) : String :=
  match ts with
  | none => "-"
  | some s => if s = "" then "-" else render s

/-! ## Dashboard stock filter (`filterStocks`) -/

/-- One entry of `EXCHANGE_OPTIONS`: exchange value, display label and
symbol prefix string. -/
structure ExchangeOption where
  value : String
  label : String
  pfx : String
deriving DecidableEq

/-- `EXCHANGE_OPTIONS` from the dashboard components. -/
def EXCHANGE_OPTIONS : List ExchangeOption :=
  [⟨"SH", "沪市主板", "60"⟩,
   ⟨"SZ", "深市主板", "00"⟩,
   ⟨"CYB", "创业板", "30"⟩,
   ⟨"KCB", "科创板", "68"⟩,
   ⟨"BJ", "北交所", "8"⟩]

/-- A stock row as the filter sees it; `symbol`, `name` and `amount` may
be absent (the source defaults them with `|| ''` resp. `|| 0`). -/
structure Stock where
  symbol : Option String
  name : Option String
  amount : Option ℚ
deriving DecidableEq

/-- The filter configuration (`filterConfig` state). -/
structure FilterConfig where
  exchanges : List String
  showST : Bool
  minAmount : ℚ

/-- JavaScript `String.prototype.includes`: substring containment. -/
def strIncludes (s pat : String) : Bool :=
  decide (pat.toList <:+: s.toList)

/-- The per-stock predicate of `filterStocks` (`part_001` and `part_002`,
identical): exchange-prefix gate, ST-name gate, minimum-amount gate,
each with an early `return false`. -/
def stockPasses (cfg : FilterConfig) (stock : Stock) : Bool :=
  let symbol := stock.symbol.getD ""
  let name := stock.name.getD ""
  let matchExchange := cfg.exchanges.any fun ex =>
    match EXCHANGE_OPTIONS.find? (fun o => o.value == ex) with
    | some opt => symbol.startsWith opt.pfx
    | none => false
  if !matchExchange then false
  else
    let isST := strIncludes name "ST" || strIncludes name "*"
    if !cfg.showST && isST then false
    else if decide (0 < cfg.minAmount) then
      if decide (stock.amount.getD 0 < cfg.minAmount * 100000000) then false
      else true
    else true

/-- `filterStocks` from the dashboard components: `stocks.filter(...)`. -/
def filterStocks (cfg : FilterConfig) (stocks : List Stock) : List Stock :=
  stocks.filter (stockPasses cfg)

/-- The keep-condition exactly as the claim states it: symbol starts with
the prefix of a selected exchange; name contains neither "ST" nor "*"
when `showST` is false; amount at least `minAmount × 100000000` when
`minAmount` is positive. -/
def ClaimKeep (cfg : FilterConfig) (st : Stock) : Prop :=
  (∃ ex ∈ cfg.exchanges, ∃ opt ∈ EXCHANGE_OPTIONS,
      opt.value = ex ∧ (st.symbol.getD "").startsWith opt.pfx = true) ∧
  (cfg.showST = false →
      ¬("ST".toList <:+: (st.name.getD "").toList) ∧
      ¬("*".toList <:+: (st.name.getD "").toList)) ∧
  (0 < cfg.minAmount → cfg.minAmount * 100000000 ≤ st.amount.getD 0)

instance (cfg : FilterConfig) (st : Stock) : Decidable (ClaimKeep cfg st) := by
  unfold ClaimKeep; infer_instance

/-! ## Alert card outcome-label buttons (`AlertCard`) -/

/-- One label button of `AlertCard`: its caption and the string that its
click handler passes to `api.updateAlertLabel`. -/
structure LabelButton where
  caption : String
  labelArg : String
deriving DecidableEq

/-- The three buttons rendered by `AlertCard` (`part_001` and the two
copies in `part_002`): each `onClick` is `handleLabel` applied to a
string literal. -/
def alertCardButtons : List LabelButton :=
  [⟨"✓ 成功", "success"⟩, ⟨"✗ 失败", "fail"⟩, ⟨"跳过", "skip"⟩]

/-- The labels submitted to `updateAlertLabel` by a sequence of button
clicks on an alert card: clicking the i-th button submits that button's
`labelArg`. -/
def submittedLabels (clicks : List (Fin alertCardButtons.length)) : List String :=
  clicks.map fun i => (alertCardButtons.get i).labelArg

/-! ## API client URL building (`api.getCandidates`, `api.getAlerts`) -/

/-- JavaScript truthiness of an optional string: `undefined` and the
empty string are falsy. -/
def truthyStr (o : Option String) : Bool :=
  match o with
  | none => false
  | some s => !(s == "")

/-- The `URLSearchParams` built by `api.getCandidates` (`part_000`):
`strategy_id` is appended only when `strategyId` is truthy, then `top`
is always appended. Default `top` is 30. -/
def getCandidatesParams (strategyId : Option String) (top : ℕ := 30) :
    List (String × String) :=
  (if truthyStr strategyId then [("strategy_id", strategyId.getD "")] else []) ++
    [("top", toString top)]

/-- The `URLSearchParams` built by `api.getAlerts` (`part_000`): `limit`
is always appended, then `strategy_id` only when truthy. Default `limit`
is 200. -/
def getAlertsParams (limit : ℕ := 200) (strategyId : Option String := none) :
    List (String × String) :=
  [("limit", toString limit)] ++
    (if truthyStr strategyId then [("strategy_id", strategyId.getD "")] else [])

/-- The query-string serialization of `URLSearchParams`. -/
def buildQuery (ps : List (String × String)) : String :=
  String.intercalate "&" (ps.map fun p => p.1 ++ "=" ++ p.2)

/-- The full request URL of `api.getCandidates`. -/
def getCandidatesUrl (strategyId : Option String) (top : ℕ := 30) : String :=
  "/api/candidates?" ++ buildQuery (getCandidatesParams strategyId top)

/-- The full request URL of `api.getAlerts`. -/
def getAlertsUrl (limit : ℕ := 200) (strategyId : Option String := none) : String :=
  "/api/alerts?" ++ buildQuery (getAlertsParams limit strategyId)

/-! ## Decision Gate (modelled from the spec)

The Decision Gate and its confidence computation belong to the backend
engine, which is not among the checked source files; only its interface
documentation is.  The definitions below are modelled from the spec. -/

/-- Trigger status: the three-valued PASS / FAIL / MISSING logic. -/
inductive TriggerStatus where
  | PASS
  | FAIL
  | MISSING
deriving DecidableEq, Repr

/-- The three-level risk light. -/
inductive RiskLight where
  | GREEN
  | YELLOW
  | RED
deriving DecidableEq, Repr

/-- A Decision action. -/
inductive GateAction where
  | ALLOW
  | WATCH
  | BLOCK
deriving DecidableEq, Repr

/-- One trigger result: rule name, whether the strategy marks the rule
as required, and its evaluated status. -/
structure TriggerRes where
  name : String
  required : Bool
  status : TriggerStatus
deriving DecidableEq

/-- Data-quality flags of the snapshot's strategy context. -/
structure DataQuality where
  dataLagSec : ℚ
  isDegraded : Bool
deriving DecidableEq

/-- Gate configuration: the ALLOW confidence floor (0.6 by default), the
maximum tolerated data lag, and the confidence penalties. -/
structure GateConfig where
  allowFloor : ℚ := 3/5
  maxLagSec : ℚ
  missPenalty : ℚ
  yellowPenalty : ℚ

/-- The inputs the Decision Gate combines for one (symbol, strategy,
tick): risk light, candidate score, trigger results, data quality, and
whether the requested symbol is in the tick's candidate pool. -/
structure GateInput where
  light : RiskLight
  score : ℚ
  triggers : List TriggerRes
  dq : DataQuality
  symbolInPool : Bool

/-- Number of triggers with the given status. -/
def countStatus (ts : List TriggerRes) (s : TriggerStatus) : ℕ :=
  (ts.filter fun t => t.status == s).length

/-- Clamp a rational into [0, 1]. -/
def clamp01 (x : ℚ) : ℚ := max 0 (min 1 x)

/-- Modelled from the spec: confidence from the trigger counts — the
fraction of rules PASS, minus a penalty per MISSING rule, minus a
penalty when the risk light is YELLOW, clamped into [0, 1].  `total` is
the rule count, `passCnt`/`missCnt` the PASS/MISSING counts. -/
def confOfCounts (cfg : GateConfig) (light : RiskLight)
    (total passCnt missCnt : ℕ) : ℚ :=
  clamp01 ((passCnt : ℚ) / (total : ℚ) - cfg.missPenalty * (missCnt : ℚ) -
    (if light = .YELLOW then cfg.yellowPenalty else 0))

/-- Modelled from the spec: the confidence of a Decision. -/
def confidence (cfg : GateConfig) (light : RiskLight)
    (triggers : List TriggerRes) : ℚ :=
  confOfCounts cfg light triggers.length
    (countStatus triggers .PASS) (countStatus triggers .MISSING)

/-- Some rule marked required has status FAIL. -/
def someRequiredFail (ts : List TriggerRes) : Bool :=
  ts.any fun t => t.required && t.status == .FAIL

/-- Some rule marked required has status MISSING. -/
def someRequiredMissing (ts : List TriggerRes) : Bool :=
  ts.any fun t => t.required && t.status == .MISSING

/-- Modelled from the spec: the Decision Gate.  BLOCK is forced when the
risk light is RED, a required rule FAILs, or the symbol is absent from
the candidate pool; WATCH is forced when data quality is degraded, the
lag exceeds the configured maximum, the confidence is below the ALLOW
floor, or a required rule is MISSING; otherwise ALLOW. -/
def decisionGate (cfg : GateConfig) (inp : GateInput) : GateAction :=
  if inp.light = .RED ∨ someRequiredFail inp.triggers = true ∨
      inp.symbolInPool = false then .BLOCK
  else if inp.dq.isDegraded = true ∨ cfg.maxLagSec < inp.dq.dataLagSec ∨
      confidence cfg inp.light inp.triggers < cfg.allowFloor ∨
      someRequiredMissing inp.triggers = true then .WATCH
  else .ALLOW

end BigA

namespace BigA

/-! ## Theorems for display helpers -/

/-- Counterexample to C7 as stated: "toString" is not one of the five
mode labels, yet `getRegimeText "toString"` is not the input string
returned unchanged — the lookup hits the inherited
`Object.prototype.toString`, which is truthy. -/
theorem getRegimeText_prototype_counterexample :
    "toString" ∉ ["STRONG", "NORMAL", "DIVERGENCE", "WEAK", "CHAOS"] ∧
    getRegimeText "toString" ≠ .str "toString" := by
  decide

/-- C7 (amended): `getRegimeText` maps each of the five mode labels to a
distinct non-empty label; every other input string is returned
unchanged, except the property names inherited from `Object.prototype`
("toString", "constructor", "valueOf", ...), where the lookup finds an
inherited truthy value and returns it instead of the input. -/
theorem getRegimeText_vocabulary_amended :
    ((["STRONG", "NORMAL", "DIVERGENCE", "WEAK", "CHAOS"].map getRegimeText).Nodup ∧
      ∀ m ∈ ["STRONG", "NORMAL", "DIVERGENCE", "WEAK", "CHAOS"],
        ∃ t : String, getRegimeText m = .str t ∧ t ≠ "") ∧
    (∀ s : String, s ∉ ["STRONG", "NORMAL", "DIVERGENCE", "WEAK", "CHAOS"] →
      s ∉ objectProtoKeys → getRegimeText s = .str s) ∧
    (∀ s ∈ objectProtoKeys, s ∉ ["STRONG", "NORMAL", "DIVERGENCE", "WEAK", "CHAOS"] →
      getRegimeText s = .inherited s) := by
  refine ⟨⟨by decide, ?_⟩, fun s hs hp => ?_, fun s hs _ => ?_⟩
  · intro m hm
    fin_cases hm
    · exact ⟨"强势", rfl, by decide⟩
    · exact ⟨"正常", rfl, by decide⟩
    · exact ⟨"分化", rfl, by decide⟩
    · exact ⟨"弱势", rfl, by decide⟩
    · exact ⟨"混沌", rfl, by decide⟩
  · simp only [List.mem_cons, List.not_mem_nil, or_false, not_or] at hs
    obtain ⟨h1, h2, h3, h4, h5⟩ := hs
    simp [getRegimeText, h1, h2, h3, h4, h5, hp]
  · fin_cases hs <;> rfl

/-- Witness for C7 (amended): the pass-through clause at "FOO" and the
prototype clause at "toString". -/
theorem getRegimeText_vocabulary_amended_witness :
    getRegimeText "FOO" = .str "FOO" ∧
    getRegimeText "toString" = .inherited "toString" :=
  ⟨getRegimeText_vocabulary_amended.2.1 "FOO" (by decide) (by decide),
   getRegimeText_vocabulary_amended.2.2 "toString" (by decide) (by decide)⟩

/-- C9: for every input string outside {GREEN, YELLOW, RED} (the empty
string included), `getRiskLightClass` returns the green style and
`getRiskLightText` returns the green label. -/
theorem riskLight_default_green (s : String)
    (hg : s ≠ "GREEN") (hy : s ≠ "YELLOW") (hr : s ≠ "RED") :
    getRiskLightClass s = "risk-light-green" ∧ getRiskLightText s = "🟢 绿灯" := by
  constructor <;> simp [getRiskLightClass, getRiskLightText, hg, hy, hr]

/-- Witness for C9 at the empty string. -/
theorem riskLight_default_green_witness :
    getRiskLightClass "" = "risk-light-green" ∧ getRiskLightText "" = "🟢 绿灯" :=
  riskLight_default_green "" (by decide) (by decide) (by decide)

/-! ## Monotonicity of the market mood classifier -/

/-- C4: with the other inputs fixed, increasing the bomb rate never
improves the classification of `getMarketMood`, and decreasing the
limit-up count never improves it, in the order
强势 > 偏强 > 震荡 > 弱势. -/
theorem getMarketMood_monotone (limitUp limitUp' limitDown : ℕ) (b b' : ℚ)
    (hb : b ≤ b') (hup : limitUp' ≤ limitUp) :
    moodRank (getMarketMood limitUp limitDown b') ≤
      moodRank (getMarketMood limitUp limitDown b) ∧
    moodRank (getMarketMood limitUp' limitDown b) ≤
      moodRank (getMarketMood limitUp limitDown b) := by
  constructor
  · unfold getMarketMood
    by_cases c1' : 100 < limitUp ∧ b' < 1/5
    · have c1 : 100 < limitUp ∧ b < 1/5 := ⟨c1'.1, lt_of_le_of_lt hb c1'.2⟩
      rw [if_pos c1', if_pos c1]
    · rw [if_neg c1']
      by_cases c2' : 50 < limitUp ∧ b' < 3/10
      · rw [if_pos c2']
        have c2 : 50 < limitUp ∧ b < 3/10 := ⟨c2'.1, lt_of_le_of_lt hb c2'.2⟩
        by_cases c1 : 100 < limitUp ∧ b < 1/5
        · rw [if_pos c1]; decide
        · rw [if_neg c1, if_pos c2]
      · rw [if_neg c2']
        by_cases c3' : 50 < limitDown ∨ 2/5 < b'
        · rw [if_pos c3']
          exact Nat.zero_le _
        · rw [if_neg c3']
          push_neg at c3'
          have c3 : ¬(50 < limitDown ∨ 2/5 < b) := by
            push_neg
            exact ⟨c3'.1, le_trans hb c3'.2⟩
          by_cases c1 : 100 < limitUp ∧ b < 1/5
          · rw [if_pos c1]; decide
          · rw [if_neg c1]
            by_cases c2 : 50 < limitUp ∧ b < 3/10
            · rw [if_pos c2]; decide
            · rw [if_neg c2, if_neg c3]
  · unfold getMarketMood
    by_cases c1' : 100 < limitUp' ∧ b < 1/5
    · have c1 : 100 < limitUp ∧ b < 1/5 := ⟨lt_of_lt_of_le c1'.1 hup, c1'.2⟩
      rw [if_pos c1', if_pos c1]
    · rw [if_neg c1']
      by_cases c2' : 50 < limitUp' ∧ b < 3/10
      · rw [if_pos c2']
        have c2 : 50 < limitUp ∧ b < 3/10 := ⟨lt_of_lt_of_le c2'.1 hup, c2'.2⟩
        by_cases c1 : 100 < limitUp ∧ b < 1/5
        · rw [if_pos c1]; decide
        · rw [if_neg c1, if_pos c2]
      · rw [if_neg c2']
        by_cases c3 : 50 < limitDown ∨ 2/5 < b
        · rw [if_pos c3]
          exact Nat.zero_le _
        · rw [if_neg c3]
          by_cases c1 : 100 < limitUp ∧ b < 1/5
          · rw [if_pos c1]; decide
          · rw [if_neg c1]
            by_cases c2 : 50 < limitUp ∧ b < 3/10
            · rw [if_pos c2]; decide
            · rw [if_neg c2]

/-! ## filterStocks returns exactly the claimed sublist -/

/-- The exchange-matching loop body agrees with the existential form used
by the claim. -/
lemma exchangeMatch_iff (symbol ex : String) :
    (match EXCHANGE_OPTIONS.find? (fun o => o.value == ex) with
      | some opt => symbol.startsWith opt.pfx
      | none => false) = true ↔
    ∃ opt ∈ EXCHANGE_OPTIONS, opt.value = ex ∧ symbol.startsWith opt.pfx = true := by
  constructor
  · intro h
    cases hf : EXCHANGE_OPTIONS.find? (fun o => o.value == ex) with
    | none => rw [hf] at h; exact absurd h (by simp)
    | some opt =>
      rw [hf] at h
      refine ⟨opt, List.mem_of_find?_eq_some hf, ?_, h⟩
      have := List.find?_some hf
      simpa using this
  · rintro ⟨opt, hmem, hval, hsw⟩
    simp only [EXCHANGE_OPTIONS, List.mem_cons, List.not_mem_nil, or_false] at hmem
    rcases hmem with rfl | rfl | rfl | rfl | rfl <;>
      (subst hval; simpa [EXCHANGE_OPTIONS, List.find?] using hsw)

/-- The per-stock filter predicate of the source agrees with the claim's
keep-condition. -/
lemma stockPasses_iff_claimKeep (cfg : FilterConfig) (st : Stock) :
    stockPasses cfg st = true ↔ ClaimKeep cfg st := by
  unfold stockPasses ClaimKeep
  simp only [Bool.not_eq_true', Bool.and_eq_true, Bool.not_eq_true, Bool.or_eq_true,
    decide_eq_true_eq]
  constructor
  · intro h
    have hex : (cfg.exchanges.any fun ex =>
        match EXCHANGE_OPTIONS.find? (fun o => o.value == ex) with
        | some opt => (st.symbol.getD "").startsWith opt.pfx
        | none => false) = true := by
      by_contra hx
      rw [Bool.not_eq_true] at hx
      rw [if_pos hx] at h
      exact Bool.false_ne_true h
    rw [if_neg (by simp [hex])] at h
    have hst : ¬(cfg.showST = false ∧
        (strIncludes (st.name.getD "") "ST" = true ∨
         strIncludes (st.name.getD "") "*" = true)) := by
      intro hc
      rw [if_pos hc] at h
      exact Bool.false_ne_true h
    refine ⟨?_, ?_, ?_⟩
    · rw [List.any_eq_true] at hex
      obtain ⟨ex, hmem, hb⟩ := hex
      exact ⟨ex, hmem, (exchangeMatch_iff _ ex).mp hb⟩
    · intro hshow
      constructor
      · intro hc
        exact hst ⟨hshow, Or.inl (by simp only [strIncludes, decide_eq_true_eq]; exact hc)⟩
      · intro hc
        exact hst ⟨hshow, Or.inr (by simp only [strIncludes, decide_eq_true_eq]; exact hc)⟩
    · intro hmin
      rw [if_neg hst, if_pos hmin] at h
      by_contra hlt
      rw [not_le] at hlt
      rw [if_pos hlt] at h
      exact Bool.false_ne_true h
  · rintro ⟨⟨ex, hmem, hopt⟩, hstOK, hamt⟩
    have hex : (cfg.exchanges.any fun ex =>
        match EXCHANGE_OPTIONS.find? (fun o => o.value == ex) with
        | some opt => (st.symbol.getD "").startsWith opt.pfx
        | none => false) = true :=
      List.any_eq_true.mpr ⟨ex, hmem, (exchangeMatch_iff _ ex).mpr hopt⟩
    rw [if_neg (by simp [hex])]
    rw [if_neg]
    · by_cases hmin : 0 < cfg.minAmount
      · rw [if_pos hmin, if_neg (not_lt.mpr (hamt hmin))]
      · rw [if_neg hmin]
    · rintro ⟨hshow, hST⟩
      rcases hstOK hshow with ⟨h1, h2⟩
      rcases hST with hc | hc <;>
        simp only [strIncludes, decide_eq_true_eq] at hc
      · exact h1 hc
      · exact h2 hc

/-- C10: for every filter configuration and stock list, `filterStocks`
returns a sublist of the input (original order, no duplication beyond the
input) that equals the input filtered by exactly the claimed
keep-condition: exchange-prefix match, ST/star-name exclusion when
`showST` is off, and the `minAmount × 100000000` floor when `minAmount`
is positive. -/
theorem filterStocks_spec (cfg : FilterConfig) (stocks : List Stock) :
    List.Sublist (filterStocks cfg stocks) stocks ∧
    filterStocks cfg stocks = stocks.filter fun st => decide (ClaimKeep cfg st) := by
  refine ⟨List.filter_sublist _, ?_⟩
  unfold filterStocks
  apply List.filter_congr
  intro st _
  rcases h : stockPasses cfg st with _ | _
  · have : ¬ ClaimKeep cfg st := fun hc =>
      Bool.false_ne_true (h ▸ (stockPasses_iff_claimKeep cfg st).mpr hc)
    simp [this]
  · have : ClaimKeep cfg st := (stockPasses_iff_claimKeep cfg st).mp h
    simp [this]

/-- Witness for C4 at concrete inputs: bomb rate 0.25 vs 0.45 and
limit-up count 120 vs 60. -/
theorem getMarketMood_monotone_witness :
    moodRank (getMarketMood 120 0 ((45 : ℚ)/100)) ≤
      moodRank (getMarketMood 120 0 ((25 : ℚ)/100)) ∧
    moodRank (getMarketMood 60 0 ((25 : ℚ)/100)) ≤
      moodRank (getMarketMood 120 0 ((25 : ℚ)/100)) :=
  getMarketMood_monotone 120 60 0 ((25 : ℚ)/100) ((45 : ℚ)/100)
    (by norm_num) (by norm_num)

/-! ## Alert-card label vocabulary -/

/-- C5: every string an alert-card interaction passes to
`updateAlertLabel` is one of "success", "fail", "skip". -/
theorem submittedLabels_vocabulary
    (clicks : List (Fin alertCardButtons.length)) (l : String)
    (hl : l ∈ submittedLabels clicks) :
    l = "success" ∨ l = "fail" ∨ l = "skip" := by
  unfold submittedLabels at hl
  rw [List.mem_map] at hl
  obtain ⟨i, _, rfl⟩ := hl
  fin_cases i <;> simp [alertCardButtons]

/-- Witness for C5: a click on the first button submits "success". -/
theorem submittedLabels_vocabulary_witness :
    "success" = "success" ∨ "success" = "fail" ∨ "success" = "skip" :=
  submittedLabels_vocabulary [⟨0, by decide⟩] "success" (by decide)

/-! ## API query parameters -/

/-- Counterexample to C6 as stated: the caller can supply the empty
string as a strategy id; it is a supplied id, yet (by JavaScript
truthiness) `strategy_id` is not appended to the query. -/
theorem apiParams_strategyId_counterexample :
    (some "" ≠ (none : Option String)) ∧
    "strategy_id" ∉ (getCandidatesParams (some "") 30).map Prod.fst ∧
    "strategy_id" ∉ (getAlertsParams 200 (some "")).map Prod.fst := by
  refine ⟨by simp, ?_, ?_⟩ <;> decide

/-- C6 (amended): the request parameter list contains `strategy_id` iff
a non-empty strategy id was supplied, and always contains the size bound
(`top` for getCandidates, `limit` for getAlerts). -/
theorem apiParams_strategy_and_size (sid : Option String) (top limit : ℕ) :
    ("strategy_id" ∈ (getCandidatesParams sid top).map Prod.fst ↔
      ∃ s, sid = some s ∧ s ≠ "") ∧
    ("strategy_id" ∈ (getAlertsParams limit sid).map Prod.fst ↔
      ∃ s, sid = some s ∧ s ≠ "") ∧
    "top" ∈ (getCandidatesParams sid top).map Prod.fst ∧
    "limit" ∈ (getAlertsParams limit sid).map Prod.fst := by
  have htruthy : truthyStr sid = true ↔ ∃ s, sid = some s ∧ s ≠ "" := by
    cases sid with
    | none => simp [truthyStr]
    | some s =>
      simp only [truthyStr, Bool.not_eq_true', beq_eq_false_iff_ne, ne_eq,
        Option.some.injEq]
      constructor
      · intro h; exact ⟨s, rfl, h⟩
      · rintro ⟨t, rfl, h⟩; exact h
  refine ⟨?_, ?_, ?_, ?_⟩
  · rw [← htruthy]
    unfold getCandidatesParams
    rcases h : truthyStr sid with _ | _ <;> simp [h]
  · rw [← htruthy]
    unfold getAlertsParams
    rcases h : truthyStr sid with _ | _ <;> simp [h]
  · unfold getCandidatesParams
    rcases h : truthyStr sid with _ | _ <;> simp [h]
  · unfold getAlertsParams
    rcases h : truthyStr sid with _ | _ <;> simp [h]

/-! ## Decision Gate invariants (spec-modelled) -/

/-- C1: whenever the risk light is RED, the gate's action is not ALLOW,
irrespective of score or triggers. -/
theorem gate_red_forces_block (cfg : GateConfig) (inp : GateInput)
    (h : inp.light = .RED) : decisionGate cfg inp ≠ .ALLOW := by
  unfold decisionGate
  rw [if_pos (Or.inl h)]
  decide

/-- Witness for C1 at a concrete RED input. -/
theorem gate_red_forces_block_witness :
    decisionGate ⟨3/5, 10, 1/10, 1/10⟩
      ⟨.RED, 80, [], ⟨0, false⟩, true⟩ ≠ .ALLOW :=
  gate_red_forces_block ⟨3/5, 10, 1/10, 1/10⟩
    ⟨.RED, 80, [], ⟨0, false⟩, true⟩ rfl

/-- C2: whenever data quality is degraded or the data lag exceeds the
configured maximum, the gate's action is not ALLOW. -/
theorem gate_degraded_forces_watch (cfg : GateConfig) (inp : GateInput)
    (h : inp.dq.isDegraded = true ∨ cfg.maxLagSec < inp.dq.dataLagSec) :
    decisionGate cfg inp ≠ .ALLOW := by
  unfold decisionGate
  by_cases hb : inp.light = .RED ∨ someRequiredFail inp.triggers = true ∨
      inp.symbolInPool = false
  · rw [if_pos hb]; decide
  · rw [if_neg hb]
    rcases h with h | h
    · rw [if_pos (Or.inl h)]; decide
    · rw [if_pos (Or.inr (Or.inl h))]; decide

/-- Witness for C2 at a concrete degraded input. -/
theorem gate_degraded_forces_watch_witness :
    decisionGate ⟨3/5, 10, 1/10, 1/10⟩
      ⟨.GREEN, 80, [], ⟨0, true⟩, true⟩ ≠ .ALLOW :=
  gate_degraded_forces_watch ⟨3/5, 10, 1/10, 1/10⟩
    ⟨.GREEN, 80, [], ⟨0, true⟩, true⟩ (Or.inl rfl)

/-- C3: with the ALLOW floor at its default 0.6, an ALLOW decision has
confidence at least 0.6; and the computed confidence is monotonically
non-increasing as the MISSING and FAIL counts grow (the rule total held
fixed, the remaining rules PASS). -/
theorem gate_confidence_floor_and_monotone :
    (∀ (cfg : GateConfig) (inp : GateInput), cfg.allowFloor = 3/5 →
      decisionGate cfg inp = .ALLOW →
      3/5 ≤ confidence cfg inp.light inp.triggers) ∧
    (∀ (cfg : GateConfig) (light : RiskLight) (n miss fail miss' fail' : ℕ),
      0 ≤ cfg.missPenalty →
      miss + fail ≤ n → miss' + fail' ≤ n → miss ≤ miss' → fail ≤ fail' →
      confOfCounts cfg light n (n - miss' - fail') miss' ≤
        confOfCounts cfg light n (n - miss - fail) miss) := by
  constructor
  · intro cfg inp hfloor hallow
    unfold decisionGate at hallow
    by_cases hb : inp.light = .RED ∨ someRequiredFail inp.triggers = true ∨
        inp.symbolInPool = false
    · rw [if_pos hb] at hallow; exact absurd hallow (by decide)
    · rw [if_neg hb] at hallow
      by_cases hw : inp.dq.isDegraded = true ∨ cfg.maxLagSec < inp.dq.dataLagSec ∨
          confidence cfg inp.light inp.triggers < cfg.allowFloor ∨
          someRequiredMissing inp.triggers = true
      · rw [if_pos hw] at hallow; exact absurd hallow (by decide)
      · rw [not_or, not_or, not_or] at hw
        exact hfloor ▸ not_lt.mp hw.2.2.1
  · intro cfg light n miss fail miss' fail' hpen h1 h2 h3 h4
    unfold confOfCounts clamp01
    apply max_le_max le_rfl
    apply min_le_min le_rfl
    have hsub : (n - miss' - fail' : ℕ) ≤ (n - miss - fail : ℕ) := by omega
    have hdiv : ((n - miss' - fail' : ℕ) : ℚ) / (n : ℚ) ≤
        ((n - miss - fail : ℕ) : ℚ) / (n : ℚ) := by
      rcases Nat.eq_zero_or_pos n with hn | hn
      · subst hn; simp
      · exact (div_le_div_iff_of_pos_right (by exact_mod_cast hn)).mpr (by exact_mod_cast hsub)
    have hmul : cfg.missPenalty * (miss : ℚ) ≤ cfg.missPenalty * (miss' : ℚ) :=
      mul_le_mul_of_nonneg_left (by exact_mod_cast h3) hpen
    linarith [hdiv, hmul]

/-- Witness for C3: an ALLOW decision with two PASS triggers reaches the
floor, and the count-level confidence at (miss, fail) = (1, 1) is at most
the one at (0, 0) for a three-rule strategy. -/
theorem gate_confidence_floor_and_monotone_witness :
    3/5 ≤ confidence ⟨3/5, 10, 1/10, 1/10⟩ .GREEN
      [⟨"env_gate", true, .PASS⟩, ⟨"slope_min", false, .PASS⟩] ∧
    confOfCounts ⟨3/5, 10, 1/10, 1/10⟩ .GREEN 3 (3 - 1 - 1) 1 ≤
      confOfCounts ⟨3/5, 10, 1/10, 1/10⟩ .GREEN 3 (3 - 0 - 0) 0 :=
  ⟨gate_confidence_floor_and_monotone.1 ⟨3/5, 10, 1/10, 1/10⟩
      ⟨.GREEN, 80, [⟨"env_gate", true, .PASS⟩, ⟨"slope_min", false, .PASS⟩],
        ⟨2, false⟩, true⟩ rfl
      (by
        have h1 : confidence ⟨3/5, 10, 1/10, 1/10⟩ .GREEN
            [⟨"env_gate", true, .PASS⟩, ⟨"slope_min", false, .PASS⟩] = 1 := by
          have h2 : confidence ⟨3/5, 10, 1/10, 1/10⟩ .GREEN
              [⟨"env_gate", true, .PASS⟩, ⟨"slope_min", false, .PASS⟩] =
              confOfCounts ⟨3/5, 10, 1/10, 1/10⟩ .GREEN 2 2 0 := rfl
          rw [h2]
          unfold confOfCounts clamp01
          rw [if_neg (by decide)]
          norm_num [max_def, min_def]
        unfold decisionGate
        rw [if_neg (by decide)]
        rw [if_neg ?_]
        intro hcond
        rcases hcond with hc | hc | hc | hc
        · exact absurd hc (by decide)
        · norm_num at hc
        · rw [h1] at hc; norm_num at hc
        · exact absurd hc (by decide)),
   gate_confidence_floor_and_monotone.2 ⟨3/5, 10, 1/10, 1/10⟩ .GREEN 3 0 0 1 1
     (by norm_num) (by norm_num) (by norm_num) (by norm_num) (by norm_num)⟩

/-! ## Formatters are total on absent data -/

lemma natDigits_ne_nil (n : ℕ) : natDigits n ≠ [] := by
  unfold natDigits
  split
  · simp
  · next h => simp [Nat.digits_ne_nil_iff_ne_zero, h]

lemma mem_natDigits (n : ℕ) (c : Char) (hc : c ∈ natDigits n) :
    ∃ k, k < 10 ∧ c = digitChar k := by
  unfold natDigits at hc
  split at hc
  · simp only [List.mem_singleton] at hc
    exact ⟨0, by norm_num, by rw [hc]; rfl⟩
  · rw [List.mem_map] at hc
    obtain ⟨k, hk, rfl⟩ := hc
    rw [List.mem_reverse] at hk
    exact ⟨k, Nat.digits_lt_base (by norm_num) hk, rfl⟩

lemma dash_not_mem_natDigits (n : ℕ) : '-' ∉ natDigits n := by
  intro h
  obtain ⟨k, hk, he⟩ := mem_natDigits n '-' h
  exact absurd he ((by decide : ∀ k, k < 10 → ¬('-' = digitChar k)) k hk)

lemma toFixedBody_ne_nil (x : ℚ) (d : ℕ) : toFixedBody x d ≠ [] := by
  unfold toFixedBody
  split
  · exact natDigits_ne_nil _
  · simp

lemma toFixedBody_ne_dash (x : ℚ) (d : ℕ) : toFixedBody x d ≠ ['-'] := by
  unfold toFixedBody
  split
  · intro h
    exact dash_not_mem_natDigits _ (by rw [h]; exact List.mem_singleton.mpr rfl)
  · intro h
    have hlen := congrArg List.length h
    simp only [List.length_append, List.length_cons, List.length_nil] at hlen
    have h1 : (natDigits (toFixedScaled x d / 10 ^ d)).length ≠ 0 := by
      simp [natDigits_ne_nil]
    omega

lemma toFixedChars_ne_nil (x : ℚ) (d : ℕ) : toFixedChars x d ≠ [] := by
  unfold toFixedChars
  split
  · simp
  · exact toFixedBody_ne_nil x d

lemma toFixed_ne_dash (x : ℚ) (d : ℕ) : toFixed x d ≠ "-" := by
  intro h
  have hd : toFixedChars x d = ['-'] := congrArg String.data h
  unfold toFixedChars at hd
  split at hd
  · have hlen := congrArg List.length hd
    simp only [List.length_cons, List.length_nil] at hlen
    have h1 : (toFixedBody x d).length ≠ 0 := by
      simp [toFixedBody_ne_nil]
    omega
  · exact toFixedBody_ne_dash x d hd

lemma append_ne_dash (s t : String) (hs : s.data ≠ []) (ht : t.data ≠ []) :
    s ++ t ≠ "-" := by
  intro h
  have hd := congrArg String.data h
  rw [String.data_append] at hd
  have hl := congrArg List.length hd
  rw [List.length_append] at hl
  simp only [List.length_cons, List.length_nil] at hl
  have hs' : 0 < s.data.length := List.length_pos.mpr hs
  have ht' : 0 < t.data.length := List.length_pos.mpr ht
  omega

/-- C8: the display formatters are total on absent data: a null or
undefined input yields the placeholder '-' for all five helpers, and a
defined numeric input never yields the placeholder for the three numeric
helpers. -/
theorem formatters_null_safe :
    ((∀ d, formatNumber none d = "-") ∧ (∀ d, formatPercent none d = "-") ∧
      formatAmount none = "-" ∧
      (∀ render, formatTime render none = "-") ∧
      (∀ render, formatDateTime render none = "-")) ∧
    (∀ x : ℚ, (∀ d, formatNumber (some x) d ≠ "-") ∧
      (∀ d, formatPercent (some x) d ≠ "-") ∧
      formatAmount (some x) ≠ "-") := by
  refine ⟨⟨fun _ => rfl, fun _ => rfl, rfl, fun _ => rfl, fun _ => rfl⟩, ?_⟩
  intro x
  refine ⟨fun d => toFixed_ne_dash x d, fun d => ?_, ?_⟩
  · show toFixed (x * 100) d ++ "%" ≠ "-"
    exact append_ne_dash _ _ (toFixedChars_ne_nil _ _) (by decide)
  · show (if 100000000 ≤ x then toFixed (x / 100000000) 2 ++ "亿"
        else if 10000 ≤ x then toFixed (x / 10000) 0 ++ "万"
        else toFixed x 0) ≠ "-"
    split_ifs
    · exact append_ne_dash _ _ (toFixedChars_ne_nil _ _) (by decide)
    · exact append_ne_dash _ _ (toFixedChars_ne_nil _ _) (by decide)
    · exact toFixed_ne_dash x 0

end BigA
